import Mathlib

/-!
Verification of the Headlamp plugin-management core
(`src/app/electron/plugin-management.ts`) against its natural-language
specification.  The TypeScript functions are shallowly embedded as Lean
definitions: pure string logic becomes Lean functions on `String` /
`List Char`, the stateful install / update / uninstall / list pipelines
become explicit state passing over a model of the plugins directory,
and external effects (HTTP fetch, semver library, tar extraction) become
oracle parameters collected in a `World` structure.  Machine integers in
SHA-256 are `Nat` reduced `% 2^32` at every step where JS/Node's crypto
would wrap.
-/

namespace Headlamp

/-! ## Generic character-list utilities -/

/-- Strip `p` from the front of `l`; `some rest` on success.  Models both
JS `String.prototype.startsWith` (via `isSome`) and prefix removal. -/
def stripHead : List Char → List Char → Option (List Char)
  | [], l => some l
  | _ :: _, [] => none
  | p :: ps, c :: cs => if p = c then stripHead ps cs else none

/-- Does `s` start with `pat`?  Models JS `s.startsWith(pat)`. -/
def startsWithS (s pat : String) : Bool :=
  (stripHead pat.data s.data).isSome

/-- Remove the first occurrence of `pat` (searching left to right) from
`l`.  Models JS `String.prototype.replace(pat, '')` with a string
pattern, which replaces only the first occurrence. -/
def removeFirst (pat : List Char) : List Char → List Char
  | [] => []
  | c :: cs =>
    match stripHead pat (c :: cs) with
    | some rest => rest
    | none => c :: removeFirst pat cs

/-- String wrapper for `removeFirst`. -/
def removeFirstS (s pat : String) : String :=
  ⟨removeFirst pat.data s.data⟩

/-- Does `l` contain `pat` as a contiguous subsequence? -/
def containsSeq (pat : List Char) : List Char → Bool
  | [] => (stripHead pat []).isSome
  | c :: cs => (stripHead pat (c :: cs)).isSome || containsSeq pat cs

/-! ## SHA-256 (Node `crypto.createHash('sha256')`), bytes as `Nat < 256` -/

/-- Truncate to a 32-bit word, as every JS/Node SHA-256 step does. -/
def w32 (n : Nat) : Nat := n % 4294967296

/-- 32-bit right rotation. -/
def rotr32 (r x : Nat) : Nat := w32 ((x >>> r) ||| (x <<< (32 - r)))

def bsig0 (x : Nat) : Nat := rotr32 2 x ^^^ rotr32 13 x ^^^ rotr32 22 x
def bsig1 (x : Nat) : Nat := rotr32 6 x ^^^ rotr32 11 x ^^^ rotr32 25 x
def ssig0 (x : Nat) : Nat := rotr32 7 x ^^^ rotr32 18 x ^^^ (x >>> 3)
def ssig1 (x : Nat) : Nat := rotr32 17 x ^^^ rotr32 19 x ^^^ (x >>> 10)

/-- The 64 SHA-256 round constants. -/
def shaK : List Nat :=
  [1116352408, 1899447441, 3049323471, 3921009573, 961987163,
   1508970993, 2453635748, 2870763221, 3624381080, 310598401,
   607225278, 1426881987, 1925078388, 2162078206, 2614888103,
   3248222580, 3835390401, 4022224774, 264347078, 604807628,
   770255983, 1249150122, 1555081692, 1996064986, 2554220882,
   2821834349, 2952996808, 3210313671, 3336571891, 3584528711,
   113926993, 338241895, 666307205, 773529912, 1294757372,
   1396182291, 1695183700, 1986661051, 2177026350, 2456956037,
   2730485921, 2820302411, 3259730800, 3345764771, 3516065817,
   3600352804, 4094571909, 275423344, 430227734, 506948616,
   659060556, 883997877, 958139571, 1322822218, 1537002063,
   1747873779, 1955562222, 2024104815, 2227730452, 2361852424,
   2428436474, 2756734187, 3204031479, 3329325298]

/-- Big-endian encoding of `n` into 8 bytes (SHA-256 length field). -/
def be64 (n : Nat) : List Nat :=
  [n >>> 56 % 256, n >>> 48 % 256, n >>> 40 % 256, n >>> 32 % 256,
   n >>> 24 % 256, n >>> 16 % 256, n >>> 8 % 256, n % 256]

/-- Big-endian encoding of a 32-bit word into 4 bytes. -/
def be32 (n : Nat) : List Nat :=
  [n >>> 24 % 256, n >>> 16 % 256, n >>> 8 % 256, n % 256]

/-- SHA-256 padding: append `0x80`, zeros to 56 mod 64, then the 64-bit
big-endian bit length. -/
def padBytes (msg : List Nat) : List Nat :=
  msg ++ 128 :: List.replicate ((119 - msg.length % 64) % 64) 0
      ++ be64 (8 * msg.length)

/-- Split into 64-byte blocks (`fuel` bounds the recursion; called with
`fuel = l.length`, enough since each step consumes 64 > 0 bytes). -/
def chunks64 : Nat → List Nat → List (List Nat)
  | _, [] => []
  | 0, _ => []
  | fuel + 1, l => l.take 64 :: chunks64 fuel (l.drop 64)

/-- Combine 4 big-endian bytes at a time into 32-bit words. -/
def toWords : List Nat → List Nat
  | b0 :: b1 :: b2 :: b3 :: rest => (((b0 * 256 + b1) * 256 + b2) * 256 + b3) :: toWords rest
  | _ => []

/-- Message-schedule extension; `acc` holds the words most recent first. -/
def extendGo : Nat → List Nat → List Nat
  | 0, acc => acc
  | n + 1, acc =>
    extendGo n
      (w32 (ssig1 (acc.getD 1 0) + acc.getD 6 0 + ssig0 (acc.getD 14 0) + acc.getD 15 0) :: acc)

/-- Extend 16 words to the 64-word schedule. -/
def schedule (ws : List Nat) : List Nat := (extendGo 48 ws.reverse).reverse

/-- The eight SHA-256 working variables. -/
structure H8 where
  a : Nat
  b : Nat
  c : Nat
  d : Nat
  e : Nat
  f : Nat
  g : Nat
  h : Nat
deriving Repr, DecidableEq

/-- SHA-256 initial state. -/
def h0 : H8 :=
  ⟨1779033703, 3144134277, 1013904242, 2773480762,
   1359893119, 2600822924, 528734635, 1541459225⟩

/-- One compression round with round constant `k` and schedule word `w`. -/
def compressStep (s : H8) (kw : Nat × Nat) : H8 :=
  let ch := (s.e &&& s.f) ^^^ ((s.e ^^^ 4294967295) &&& s.g)
  let maj := (s.a &&& s.b) ^^^ (s.a &&& s.c) ^^^ (s.b &&& s.c)
  let t1 := w32 (s.h + bsig1 s.e + ch + kw.1 + kw.2)
  let t2 := w32 (bsig0 s.a + maj)
  ⟨w32 (t1 + t2), s.a, s.b, s.c, w32 (s.d + t1), s.e, s.f, s.g⟩

/-- Process one 64-byte block starting from state `s`. -/
def blockStep (s : H8) (block : List Nat) : H8 :=
  let t := (shaK.zip (schedule (toWords block))).foldl compressStep s
  ⟨w32 (s.a + t.a), w32 (s.b + t.b), w32 (s.c + t.c), w32 (s.d + t.d),
   w32 (s.e + t.e), w32 (s.f + t.f), w32 (s.g + t.g), w32 (s.h + t.h)⟩

/-- SHA-256 of a byte sequence, returned as 32 bytes. -/
def sha256 (msg : List Nat) : List Nat :=
  let padded := padBytes msg
  let fin := (chunks64 padded.length padded).foldl blockStep h0
  be32 fin.a ++ be32 fin.b ++ be32 fin.c ++ be32 fin.d
    ++ be32 fin.e ++ be32 fin.f ++ be32 fin.g ++ be32 fin.h

/-- One lowercase hex digit, as Node's `digest('hex')` produces. -/
def hexDigit (n : Nat) : Char :=
  if n < 10 then Char.ofNat (48 + n) else Char.ofNat (87 + n)

/-- Lowercase hex encoding of a byte list. -/
def hexEncode (bs : List Nat) : String :=
  ⟨(bs.map fun b => [hexDigit (b / 16 % 16), hexDigit (b % 16)]).flatten⟩

/-! ## JavaScript values and truthiness

`package.json` fields are arbitrary JSON values; the code tests several of
them for JS truthiness (`if (packageJSON.isManagedByHeadlampPlugin)`,
`packageJson.name || folderName`, …). -/

inductive JSVal where
  | vBool (b : Bool)
  | vNum (n : Int)
  | vStr (s : String)
  | vNull
  | vUndef
deriving Repr, DecidableEq

/-- JS truthiness of a `JSVal`. -/
def truthy : JSVal → Bool
  | .vBool b => b
  | .vNum n => n ≠ 0
  | .vStr s => s ≠ ""
  | .vNull => false
  | .vUndef => false

/-- Structural decidable equality for `Except`, so concrete runs can be
checked with `decide`. -/
instance {ε α : Type} [DecidableEq ε] [DecidableEq α] : DecidableEq (Except ε α) :=
  fun x y =>
    match x, y with
    | .ok a, .ok b =>
      match decEq a b with
      | isTrue h => isTrue (h ▸ rfl)
      | isFalse h => isFalse fun hh => h (Except.ok.inj hh)
    | .error a, .error b =>
      match decEq a b with
      | isTrue h => isTrue (h ▸ rfl)
      | isFalse h => isFalse fun hh => h (Except.error.inj hh)
    | .ok _, .error _ => isFalse nofun
    | .error _, .ok _ => isFalse nofun

/-! ## Errors and progress events -/

/-- Thrown JS errors.  `msg s` is `new Error(s)`; the others are runtime /
library exceptions whose message text the code never matches on. -/
inductive Err where
  | msg (s : String)
  | typeError
  | jsonError
  | aborted
  | ioError
deriving Repr, DecidableEq

/-- The `e.message` string passed to progress callbacks. -/
def Err.message : Err → String
  | .msg s => s
  | .typeError => "TypeError"
  | .jsonError => "Unexpected token in JSON"
  | .aborted => "This operation was aborted"
  | .ioError => "ENOENT"

/-- A `ProgressResp` delivered to the progress callback (the optional
`data` payload is not modelled; no claim depends on it). -/
inductive Event where
  | info (m : String)
  | success (m : String)
  | error (m : String)
deriving Repr, DecidableEq

/-- Is an event terminal (`success` or `error`)? -/
def Event.isTerminal : Event → Bool
  | .info _ => false
  | .success _ => true
  | .error _ => true

/-- Emit an event only when a progress callback is attached. -/
def evIf (cb : Bool) (e : Event) : List Event := if cb then [e] else []

/-- Observable network / filesystem actions, recorded as a trace so that
claims of the form "X never happens before Y" can be stated. -/
inductive Action where
  | netFetch (url : String)
  | netDownload (url : String)
  | mkTempDir
  | mkNamedDir (name : String)
  | extract
  | readTmpManifest
  | writeTmpManifest
  | mkDestDir
  | rmPluginDir (folderName : String)
  | mkPluginDir (folderName : String)
  | copyTree (folderName : String)
  | rmTmp
deriving Repr, DecidableEq

/-! ## Data model: manifests, plugin folders, registry packages -/

/-- The `artifacthub` provenance object embedded in an installed plugin's
`package.json`.  All fields are optional on the read side. -/
structure ArtifactHubRec where
  name : Option String
  title : Option String
  url : Option String
  version : Option String
  repoName : Option String
  author : Option String
deriving Repr, DecidableEq

/-- A parsed `package.json`. -/
structure Manifest where
  name : Option String
  version : Option String
  artifacthub : Option ArtifactHubRec
  isManagedByHeadlampPlugin : JSVal
deriving Repr, DecidableEq

/-- A `package.json` file on disk: either unparseable or parsed. -/
inductive PkgFile where
  | malformed
  | parsed (m : Manifest)
deriving Repr, DecidableEq

/-- Contents of one directory in the plugins root. -/
structure PluginFolder where
  hasMainJs : Bool
  packageJson : Option PkgFile
deriving Repr, DecidableEq

/-- The plugins root: directory entries (name, contents).  Plain files in
the root are filtered out by `entry.isDirectory()` before the loop, so
only directories are modelled. -/
abbrev Root := List (String × PluginFolder)

/-- One entry of `PluginManager.list`'s result (`PluginData`). -/
structure PluginData where
  pluginName : String
  pluginTitle : Option String
  pluginVersion : Option String
  folderName : String
  artifacthubURL : Option String
  repoName : Option String
  author : Option String
  artifacthubVersion : Option String
deriving Repr, DecidableEq

/-- Registry metadata (`ArtifactHubHeadlampPkg`) as mapped from the API
response by `fetchPluginInfo`.  `archiveURL` / `archiveChecksum` come from
the response's `data` object and may be absent (`undefined`). -/
structure Pkg where
  name : String
  display_name : Option String
  version : String
  repoName : String
  userAlias : Option String
  archiveURL : Option String
  archiveChecksum : Option String
  versionCompat : String
deriving Repr, DecidableEq

/-! ## Validators -/

/-- `validatePluginName`: the regex `[\/\\]|(\.\.)` must not match, i.e.
the name contains no `/`, no `\`, and no `..`. -/
def validatePluginName (s : String) : Bool :=
  !(s.data.any (fun c => c = '/' || c = '\\') || containsSeq ['.', '.'] s.data)

/-- JS regex `.` (no `s` flag) does not match line terminators. -/
def lineTerm (c : Char) : Bool :=
  c = '\n' || c = '\r' || c = Char.ofNat 0x2028 || c = Char.ofNat 0x2029

/-- Can `.*$` match `l` (no line terminator anywhere)? -/
def tailOK (l : List Char) : Bool := l.all fun c => !lineTerm c

/-- Consume the chars matched by `[^\/]+\/` (one or more non-slash chars,
then a slash), returning the remainder.  `dropSeg` handles the tail after
the first, already-validated character. -/
def dropSeg : List Char → Option (List Char)
  | [] => none
  | c :: cs => if c = '/' then some cs else dropSeg cs

/-- Match `[^\/]+\/` at the front of the list. -/
def takeSeg : List Char → Option (List Char)
  | [] => none
  | c :: cs => if c = '/' then none else dropSeg cs

/-- Sequence one parsing step: fail on `none`, continue on `some`. -/
def optStep (o : Option (List Char)) (g : List Char → Bool) : Bool :=
  match o with
  | none => false
  | some y => g y

/-- Recognizer for the anchored regexes used by `validateArchiveURL`:
`^<head><seg>/<seg>/(<kw₁>|<kw₂>).*$` where each `kwᵢ` carries its
trailing `/`. -/
def hostTest (head : List Char) (kws : List (List Char)) (l : List Char) : Bool :=
  optStep (stripHead head l) fun r0 =>
  optStep (takeSeg r0) fun r1 =>
  optStep (takeSeg r1) fun r2 =>
  kws.any fun kw => optStep (stripHead kw r2) tailOK

/-- `validateArchiveURL`: the three hosting-provider regexes plus the
pinned test-fixture `startsWith`. -/
def validateArchiveURL (s : String) : Bool :=
  hostTest "https://github.com/".data ["releases/".data, "archive/".data] s.data
  || hostTest "https://bitbucket.org/".data ["downloads/".data, "get/".data] s.data
  || hostTest "https://gitlab.com/".data ["-/archive/".data, "releases/".data] s.data
  || startsWithS s "https://github.com/yolossn/headlamp-plugins/"

/-- `validateArchiveURL` as called on the possibly-`undefined`
`pluginInfo.archiveURL`: `regex.test(undefined)` coerces to the string
`"undefined"`, which matches none of the patterns. -/
def validateArchiveURLOpt : Option String → Bool
  | none => false
  | some s => validateArchiveURL s

/-- String shown in the invalid-archive-url error (`'...' + archiveURL`
stringifies `undefined`). -/
def showURL : Option String → String
  | none => "undefined"
  | some s => s

/-- Checksum normalization from `downloadExtractArchive`: when the value
starts with `sha256:` or `SHA256:`, remove the first occurrence of
`sha256:` and then the first occurrence of `SHA256:`. -/
def normalizeChecksum (c : String) : String :=
  if startsWithS c "sha256:" || startsWithS c "SHA256:" then
    removeFirstS (removeFirstS c "sha256:") "SHA256:"
  else c

/-! ## External world: network, semver library, tar extraction

The operations consult external services.  Their responses are supplied
as oracle functions so that theorems quantify over every possible
external behaviour. -/

/-- Outcome of a `fetch` that was actually issued: a transport-level
rejection, or a response with `ok` flag, status and payload. -/
inductive NetRes (α : Type) where
  | reject (e : Err)
  | resp (ok : Bool) (status : Nat) (payload : α)

/-- External behaviour for one operation run.  `aborted` models an
`AbortSignal` that fired before the operation (the only signal state the
claims quantify over); `semverLte`/`semverSatisfies` model the `semver`
library (`none` = the library throws on an invalid version); `extractRes`
gives the temp-folder contents produced by untarring the verified bytes,
or the extraction failure. -/
structure World where
  aborted : Bool
  destExists : Bool
  netMeta : String → NetRes Pkg
  netArch : String → NetRes (Option (List Nat))
  semverSatisfies : String → String → Bool
  semverLte : String → String → Option Bool
  extractRes : List Nat → Except Err PluginFolder

/-! ## Folder validity and `list` -/

/-- Look up a directory by name in the plugins root. -/
def getFolder (root : Root) (n : String) : Option PluginFolder :=
  (root.find? fun e => e.1 = n).map (·.2)

/-- Remove a directory by name (`fs.rmdirSync(dir, { recursive: true })`). -/
def removeFolder (root : Root) (n : String) : Root :=
  root.filter fun e => e.1 ≠ n

/-- Create / overwrite a directory entry. -/
def setFolder (root : Root) (n : String) (f : PluginFolder) : Root :=
  removeFolder root n ++ [(n, f)]

/-- `checkValidPluginFolder` on the contents of an existing directory:
requires `main.js` and `package.json`, then parses the manifest
(`JSON.parse` throws on malformed input) and tests
`isManagedByHeadlampPlugin` for truthiness. -/
def checkValidFolder (fl : PluginFolder) : Except Err Bool :=
  if !fl.hasMainJs then .ok false
  else
    match fl.packageJson with
    | none => .ok false
    | some .malformed => .error .jsonError
    | some (.parsed m) => .ok (truthy m.isManagedByHeadlampPlugin)

/-- `checkValidPluginFolder` on a path: a missing directory fails the
`existsSync` test. -/
def checkValidAt (root : Root) (n : String) : Except Err Bool :=
  match getFolder root n with
  | none => .ok false
  | some fl => checkValidFolder fl

/-- Build one `PluginData` record from a valid folder's manifest, as the
loop body of `list` does.  `packageJson.artifacthub.title` is read
without a guard, so a missing `artifacthub` object raises a `TypeError`;
the remaining provenance fields are guarded by
`packageJson.artifacthub ? … : null`. -/
def mkPluginData (fname : String) (m : Manifest) : Except Err PluginData :=
  let pluginName :=
    match m.name with
    | some s => if s = "" then fname else s
    | none => fname
  match m.artifacthub with
  | none => .error .typeError
  | some ah =>
    .ok
      { pluginName := pluginName
        pluginTitle := ah.title
        pluginVersion := m.version.bind fun s => if s = "" then none else some s
        folderName := fname
        artifacthubURL := m.artifacthub.bind (·.url)
        repoName := m.artifacthub.bind (·.repoName)
        author := m.artifacthub.bind (·.author)
        artifacthubVersion := m.artifacthub.bind (·.version) }

/-- The `for` loop of `PluginManager.list`: invalid folders are skipped,
any thrown error aborts the whole enumeration. -/
def listGo : Root → Except Err (List PluginData)
  | [] => .ok []
  | (fname, fl) :: rest =>
    match checkValidFolder fl with
    | .error e => .error e
    | .ok false => listGo rest
    | .ok true =>
      match fl.packageJson with
      | some (.parsed m) =>
        match mkPluginData fname m with
        | .error e => .error e
        | .ok pd =>
          match listGo rest with
          | .error e => .error e
          | .ok tl => .ok (pd :: tl)
      | _ => .error .ioError

/-- `PluginManager.list` without a progress callback: returns the
collected `PluginData` or throws. -/
def listPlugins (root : Root) : Except Err (List PluginData) := listGo root

/-- `PluginManager.list` with the reporting wrapper.  With a callback the
result value is `undefined` (`none`) and errors become a terminal error
event; without one the data is returned and errors are thrown. -/
def listOp (cb : Bool) (root : Root) :
    List Event × Except Err (Option (List PluginData)) :=
  match listPlugins root with
  | .ok pd =>
    if cb then ([Event.success "Plugins Listed"], .ok none) else ([], .ok (some pd))
  | .error e =>
    if cb then ([Event.error e.message], .ok none) else ([], .error e)

/-! ## Registry client: `fetchPluginInfo` -/

/-- Replace the first occurrence of `pat` in the subject with `rep`
(JS `String.prototype.replace` with string arguments). -/
def replaceFirstWith (pat rep : List Char) : List Char → List Char
  | [] => []
  | c :: cs =>
    match stripHead pat (c :: cs) with
    | some rest => rep ++ rest
    | none => c :: replaceFirstWith pat rep cs

/-- String wrapper for `replaceFirstWith`. -/
def replaceFirstS (s pat rep : String) : String :=
  ⟨replaceFirstWith pat.data rep.data s.data⟩

/-- The ArtifactHub package-page URL base. -/
def ahPages : String := "https://artifacthub.io/packages/headlamp/"

/-- The ArtifactHub API URL base substituted in by `fetchPluginInfo`. -/
def ahAPI : String := "https://artifacthub.io/api/v1/packages/headlamp/"

/-- Result of one inner pipeline call: the progress events it emitted,
the network / filesystem actions it performed, and its return value or
thrown error. -/
structure Run (α : Type) where
  events : List Event
  actions : List Action
  result : Except Err α
deriving DecidableEq, Repr

/-- Result of one public operation: events, actions, the final plugins
root and the returned / thrown outcome. -/
structure OpRun where
  events : List Event
  actions : List Action
  root : Root
  result : Except Err Unit
deriving DecidableEq, Repr

/-- `fetchPluginInfo(URL, progressCallback, signal)`.  The URL argument is
`Option` because `update` passes the possibly-`null` stored
`artifacthubURL` (on `null`, `URL.startsWith` raises a `TypeError`).
The function's own catch block reports any error to the callback and then
rethrows, so error events appear here *and* the result is still an
error. -/
def fetchPluginInfo (w : World) (cb : Bool) (url : Option String) : Run Pkg :=
  match url with
  | none =>
    ⟨evIf cb (.error Err.typeError.message), [], .error .typeError⟩
  | some u =>
    if !startsWithS u ahPages then
      let e := Err.msg "Invalid URL. Please provide a valid URL from ArtifactHub."
      ⟨evIf cb (.error e.message), [], .error e⟩
    else
      let apiURL := replaceFirstS u ahPages ahAPI
      let ev0 := evIf cb (.info "Fetching Plugin Metadata")
      if w.aborted then
        -- Modelled from the spec: the `fetch` primitive is external; per
        -- "Honors an external cancellation signal: if already cancelled,
        -- must not issue the request", a pre-fired signal makes `fetch`
        -- reject without issuing the request.
        ⟨ev0 ++ evIf cb (.error Err.aborted.message), [], .error .aborted⟩
      else
        match w.netMeta apiURL with
        | .reject e =>
          ⟨ev0 ++ evIf cb (.error e.message), [.netFetch apiURL], .error e⟩
        | .resp ok status pkg =>
          if !ok then
            let e := Err.msg ("HTTP error! status: " ++ toString status)
            ⟨ev0 ++ evIf cb (.error e.message), [.netFetch apiURL], .error e⟩
          else ⟨ev0, [.netFetch apiURL], .ok pkg⟩

/-! ## Archive fetch, verify, extract: `downloadExtractArchive` -/

/-- The Headlamp-version compatibility check inside
`downloadExtractArchive` (only run when a `headlampVersion` is given). -/
def compatCheck (w : World) (cb : Bool) (hv : String) (pkg : Pkg) :
    List Event × Except Err Unit :=
  if hv ≠ "" then
    let e0 := evIf cb (.info "Checking compatibility with Headlamp version")
    if w.semverSatisfies hv pkg.versionCompat then
      (e0 ++ evIf cb (.info "Headlamp version is compatible"), .ok ())
    else (e0, .error (.msg "Headlamp version is not compatible with the plugin"))
  else ([], .ok ())

/-- `downloadExtractArchive(pluginInfo, headlampVersion, progressCallback,
signal)`.  `pkgO = none` models the `undefined` metadata that `install`
passes on after a reported fetch failure (`pluginInfo.name` then raises a
`TypeError`).  The `AbortSignal` is modelled as constant over the run, so
the repeated `signal.aborted` checks collapse into the first. -/
def downloadExtractArchive (w : World) (pkgO : Option Pkg) (hv : String) (cb : Bool) :
    Run (String × PluginFolder) :=
  if w.aborted then ⟨[], [], .error (.msg "Download cancelled")⟩
  else
    match pkgO with
    | none => ⟨[], [], .error .typeError⟩
    | some pkg =>
      if !validatePluginName pkg.name then
        ⟨[], [], .error (.msg "Invalid plugin name")⟩
      else if !validateArchiveURLOpt pkg.archiveURL then
        ⟨[], [], .error (.msg ("Invalid plugin/archive-url:" ++ showURL pkg.archiveURL))⟩
      else
        match pkg.archiveURL, pkg.archiveChecksum with
        | none, _ =>
          ⟨[], [], .error (.msg "Invalid plugin metadata. Please check the plugin details.")⟩
        | some _, none =>
          ⟨[], [], .error (.msg "Invalid plugin metadata. Please check the plugin details.")⟩
        | some u, some c0 =>
          if c0 = "" then
            ⟨[], [], .error (.msg "Invalid plugin metadata. Please check the plugin details.")⟩
          else
            let checksum := normalizeChecksum c0
            let cev := (compatCheck w cb hv pkg).1
            match (compatCheck w cb hv pkg).2 with
            | .error e => ⟨cev, [], .error e⟩
            | .ok _ =>
              let acts0 := [Action.mkTempDir, Action.mkNamedDir pkg.name]
              let ev1 := cev ++ evIf cb (.info "Downloading Plugin")
              match w.netArch u with
              | .reject e => ⟨ev1, acts0 ++ [.netDownload u], .error e⟩
              | .resp ok status body =>
                if !ok then
                  ⟨ev1, acts0 ++ [.netDownload u],
                   .error (.msg ("Failed to download tarball. Status code: " ++ toString status))⟩
                else
                  let ev2 := ev1 ++ evIf cb (.info "Plugin Downloaded")
                  match body with
                  | none => ⟨ev2, acts0 ++ [.netDownload u], .error (.msg "Download empty")⟩
                  | some bytes =>
                    if hexEncode (sha256 bytes) ≠ checksum then
                      ⟨ev2, acts0 ++ [.netDownload u], .error (.msg "Checksum mismatch.")⟩
                    else
                      let ev3 := ev2 ++ evIf cb (.info "Extracting Plugin")
                      match w.extractRes bytes with
                      | .error e => ⟨ev3, acts0 ++ [.netDownload u, .extract], .error e⟩
                      | .ok tmp =>
                        let ev4 := ev3 ++ evIf cb (.info "Plugin Extracted")
                        let acts1 := acts0 ++ [.netDownload u, .extract, .readTmpManifest]
                        match tmp.packageJson with
                        | none => ⟨ev4, acts1, .error .ioError⟩
                        | some .malformed => ⟨ev4, acts1, .error .jsonError⟩
                        | some (.parsed m) =>
                          let m2 := { m with
                            artifacthub := some
                              { name := some pkg.name
                                title := pkg.display_name
                                url := some ("https://artifacthub.io/packages/headlamp/"
                                  ++ pkg.repoName ++ "/" ++ pkg.name)
                                version := some pkg.version
                                repoName := some pkg.repoName
                                author := pkg.userAlias }
                            isManagedByHeadlampPlugin := .vBool true }
                          ⟨ev4, acts1 ++ [.writeTmpManifest],
                           .ok (pkg.name, { tmp with packageJson := some (.parsed m2) })⟩

/-! ## Orchestrator: install / update / uninstall -/

/-- `PluginManager.installFromPluginPkg`.  On success the temp folder is
promoted to `destinationFolder/basename(name)`; the name passed
validation inside `downloadExtractArchive`, so it contains no path
separators and `basename(name) = name`. -/
def installFromPluginPkg (w : World) (cb : Bool) (pkgO : Option Pkg) (hv : String)
    (root : Root) : OpRun :=
  let d := downloadExtractArchive w pkgO hv cb
  match d.result with
  | .error e =>
    ⟨d.events ++ evIf cb (.error e.message), d.actions, root,
     if cb then .ok () else .error e⟩
  | .ok (name, tmp) =>
    let mk := if w.destExists then [] else [Action.mkDestDir]
    ⟨d.events ++ evIf cb (.success "Plugin Installed"),
     d.actions ++ mk ++ [.copyTree name, .rmTmp],
     setFolder root name tmp, .ok ()⟩

/-- `PluginManager.install`.  When `fetchPluginInfo` fails and a callback
is attached, the catch block reports the error a second time and then
falls through to `installFromPluginPkg(undefined, …)`; without a callback
the error is rethrown. -/
def install (w : World) (cb : Bool) (url : Option String) (hv : String) (root : Root) :
    OpRun :=
  let f := fetchPluginInfo w cb url
  match f.result with
  | .error e =>
    if cb then
      let i := installFromPluginPkg w cb none hv root
      ⟨f.events ++ [.error e.message] ++ i.events, f.actions ++ i.actions, i.root, i.result⟩
    else ⟨f.events, f.actions, root, .error e⟩
  | .ok pkg =>
    let i := installFromPluginPkg w cb (some pkg) hv root
    ⟨f.events ++ i.events, f.actions ++ i.actions, i.root, i.result⟩

/-- The `try` body of `PluginManager.uninstall`: look the plugin up by
manifest name in `list`'s output, re-validate its folder, then remove it
recursively. -/
def uninstallCore (name : String) (root : Root) : Except Err Root :=
  match listPlugins root with
  | .error e => .error e
  | .ok plugins =>
    match plugins.find? fun p => p.pluginName = name with
    | none => .error (.msg "Plugin not found")
    | some plugin =>
      match checkValidAt root plugin.folderName with
      | .error e => .error e
      | .ok false => .error (.msg "Invalid plugin folder")
      | .ok true =>
        match getFolder root plugin.folderName with
        | some _ => .ok (removeFolder root plugin.folderName)
        | none => .error (.msg "Plugin not found")

/-- The folder removed by a successful `uninstall` run (for the action
trace). -/
def uninstallActions (name : String) (root : Root) : List Action :=
  match listPlugins root with
  | .error _ => []
  | .ok plugins =>
    match plugins.find? fun p => p.pluginName = name with
    | none => []
    | some plugin =>
      match checkValidAt root plugin.folderName with
      | .ok true =>
        match getFolder root plugin.folderName with
        | some _ => [.rmPluginDir plugin.folderName]
        | none => []
      | _ => []

/-- `PluginManager.uninstall` with its reporting wrapper. -/
def uninstall (name : String) (cb : Bool) (root : Root) : OpRun :=
  match uninstallCore name root with
  | .ok root2 =>
    ⟨evIf cb (.success "Plugin Uninstalled"), uninstallActions name root, root2, .ok ()⟩
  | .error e =>
    if cb then ⟨[.error e.message], uninstallActions name root, root, .ok ()⟩
    else ⟨[], uninstallActions name root, root, .error e⟩

/-- The `try` body of `PluginManager.update`: look up the installed
plugin, read its manifest, re-fetch registry metadata from the stored
URL, gate on `semver.lte(latest, current)`, then download, verify,
extract and destructively replace the plugin folder. -/
def updateCore (w : World) (cb : Bool) (name hv : String) (root : Root) : OpRun :=
  match listPlugins root with
  | .error e => ⟨[], [], root, .error e⟩
  | .ok plugins =>
    match plugins.find? fun p => p.pluginName = name with
    | none => ⟨[], [], root, .error (.msg "Plugin not found")⟩
    | some plugin =>
      match getFolder root plugin.folderName with
      | none => ⟨[], [], root, .error .ioError⟩
      | some fl =>
        match fl.packageJson with
        | none => ⟨[], [], root, .error .ioError⟩
        | some .malformed => ⟨[], [], root, .error .jsonError⟩
        | some (.parsed pj) =>
          let f := fetchPluginInfo w cb plugin.artifacthubURL
          match f.result with
          | .error e => ⟨f.events, f.actions, root, .error e⟩
          | .ok pkg =>
            match pj.artifacthub with
            | none => ⟨f.events, f.actions, root, .error .typeError⟩
            | some ah =>
              match (match ah.version with
                     | none => none
                     | some c => w.semverLte pkg.version c) with
              | none => ⟨f.events, f.actions, root, .error (.msg "Invalid Version")⟩
              | some true => ⟨f.events, f.actions, root, .error (.msg "No updates available")⟩
              | some false =>
                let d := downloadExtractArchive w (some pkg) hv cb
                match d.result with
                | .error e => ⟨f.events ++ d.events, f.actions ++ d.actions, root, .error e⟩
                | .ok (_, tmp) =>
                  let fn := plugin.folderName
                  ⟨f.events ++ d.events,
                   f.actions ++ d.actions
                     ++ [.rmPluginDir fn, .mkPluginDir fn, .copyTree fn, .rmTmp],
                   setFolder root fn tmp, .ok ()⟩

/-- `PluginManager.update` with its reporting wrapper. -/
def update (w : World) (cb : Bool) (name hv : String) (root : Root) : OpRun :=
  let u := updateCore w cb name hv root
  match u.result with
  | .ok _ => ⟨u.events ++ evIf cb (.success "Plugin Updated"), u.actions, u.root, .ok ()⟩
  | .error e =>
    ⟨u.events ++ evIf cb (.error e.message), u.actions, u.root,
     if cb then .ok () else .error e⟩

/-! ## `moveDirs` (the promote step) -/

/-- State for one `moveDirs` call: the temp source tree and the
destination tree, `none` meaning absent. -/
structure MoveState (α : Type) where
  src : Option α
  dst : Option α
deriving Repr, DecidableEq

/-- `moveDirs(currentPath, newPath)`: `fs.cpSync` the whole tree, then
`fs.rmSync` the source; any failure is rethrown.  `cpFails` / `rmFails`
model I/O failures of the two calls; a failed copy may leave the
destination partially written (`partialDst`); the source is only removed
after a fully successful copy. -/
def moveDirs {α : Type} (cpFails rmFails : Bool) (partialDst : Option α)
    (s : MoveState α) : MoveState α × Except Err Unit :=
  match s.src with
  | none => (s, .error .ioError)
  | some tree =>
    if cpFails then ({ s with dst := partialDst }, .error .ioError)
    else if rmFails then ({ s with dst := some tree }, .error .ioError)
    else ({ src := none, dst := some tree }, .ok ())

/-! ## Spec-side characterization of the archive-URL allow-list

Declarative rendering of the spec's description ("release/archive
endpoints of a small set of known source-hosting providers, plus one
explicitly pinned test-fixture origin"), to be proved equivalent to the
regex recognizer embedded from the code. -/

/-- A single URL path segment: non-empty, no `/`. -/
def SegOK (u : List Char) : Prop := u ≠ [] ∧ ∀ c ∈ u, c ≠ '/'

/-- A trailing path part the regex `.*$` accepts: no line terminators. -/
def NoTerm (t : List Char) : Prop := ∀ c ∈ t, lineTerm c = false

/-- Modelled from the spec: a provider URL is
`<head><user>/<repo>/<keyword><tail>` where `<keyword>` (slash included)
is one of the provider's release/archive path markers. -/
def HostSpec (head : List Char) (kws : List (List Char)) (l : List Char) : Prop :=
  ∃ u r kw t, kw ∈ kws ∧ SegOK u ∧ SegOK r ∧ NoTerm t ∧
    l = head ++ (u ++ '/' :: (r ++ '/' :: (kw ++ t)))

/-- Modelled from the spec: the full archive-URL allow-list — GitHub
releases/archive, Bitbucket downloads/get, GitLab dash-archive or
releases, plus the pinned fixture origin. -/
def AllowedBySpec (s : String) : Prop :=
  HostSpec "https://github.com/".data ["releases/".data, "archive/".data] s.data
  ∨ HostSpec "https://bitbucket.org/".data ["downloads/".data, "get/".data] s.data
  ∨ HostSpec "https://gitlab.com/".data ["-/archive/".data, "releases/".data] s.data
  ∨ ∃ t, s.data = "https://github.com/yolossn/headlamp-plugins/".data ++ t

/-! ## ASCII case folding (to state case-insensitive hex comparison) -/

/-- Lower-case one ASCII character. -/
def asciiLower (c : Char) : Char :=
  if 'A' ≤ c && c ≤ 'Z' then Char.ofNat (c.toNat + 32) else c

/-- Equality of strings up to ASCII case. -/
def eqIgnoreCase (a b : String) : Bool :=
  a.data.map asciiLower == b.data.map asciiLower

/-! ## Concrete fixtures for counterexamples and witnesses -/

/-- Lowercase SHA-256 hex digest of the empty byte sequence. -/
def emptyDigest : String :=
  "e3b0c44298fc1c149afbf4c8996fb92427ae41e4649b934ca495991b7852b855"

/-- The same digest with all hex digits upper-cased. -/
def emptyDigestUpper : String :=
  "E3B0C44298FC1C149AFBF4C8996FB92427AE41E4649B934CA495991B7852B855"

/-- A well-formed registry package whose declared checksum matches the
empty archive body. -/
def okPkg : Pkg :=
  { name := "my-plugin", display_name := some "My Plugin", version := "1.2.3",
    repoName := "repo", userAlias := some "alice",
    archiveURL := some "https://github.com/o/r/releases/download/v1/a.tar.gz",
    archiveChecksum := some ("sha256:" ++ emptyDigest),
    versionCompat := ">=0.0.1" }

/-- Like `okPkg` but the declared checksum is upper-case hex. -/
def upperPkg : Pkg :=
  { okPkg with archiveChecksum := some ("sha256:" ++ emptyDigestUpper) }

/-- Temp-folder contents produced by extracting the fixture archive. -/
def okTmpFolder : PluginFolder :=
  { hasMainJs := true,
    packageJson := some (.parsed
      { name := some "my-plugin", version := some "1.2.3",
        artifacthub := none, isManagedByHeadlampPlugin := .vUndef }) }

/-- A benign external world: nothing aborted, metadata and archive fetches
succeed, versions compare as needed, extraction succeeds. -/
def okWorld : World :=
  { aborted := false, destExists := true,
    netMeta := fun _ => .resp true 200 okPkg,
    netArch := fun _ => .resp true 200 (some []),
    semverSatisfies := fun _ _ => true,
    semverLte := fun _ _ => some false,
    extractRes := fun _ => .ok okTmpFolder }

/-- `okWorld` with a signal that fired before the operation started. -/
def firedWorld : World := { okWorld with aborted := true }

/-- `okWorld` whose semver library reports the remote version as less than
or equal to the installed one. -/
def lteTrueWorld : World := { okWorld with semverLte := fun _ _ => some true }

/-- A managed plugin folder whose manifest has no `artifacthub` object. -/
def noAhFolder : PluginFolder :=
  { hasMainJs := true,
    packageJson := some (.parsed
      { name := some "p1-plugin", version := some "1.0.0",
        artifacthub := none, isManagedByHeadlampPlugin := .vBool true }) }

/-- A plugins root holding only `noAhFolder`. -/
def noAhRoot : Root := [("p1", noAhFolder)]

/-- A folder whose manifest lacks the managed flag (foreign folder). -/
def unmanagedFolder : PluginFolder :=
  { hasMainJs := true,
    packageJson := some (.parsed
      { name := some "foreign-plugin", version := some "1.0.0",
        artifacthub := some
          { name := some "foreign-plugin", title := some "t",
            url := some "u", version := some "1.0.0",
            repoName := some "r", author := some "a" },
        isManagedByHeadlampPlugin := .vBool false }) }

/-- A plugins root holding only `unmanagedFolder`. -/
def unmanagedRoot : Root := [("foreign", unmanagedFolder)]

/-- A managed folder whose manifest declares the traversal-shaped name
`../x`. -/
def evilNameRoot : Root :=
  [("evil", { hasMainJs := true,
              packageJson := some (.parsed
                { name := some "../x", version := some "1.0.0",
                  artifacthub := some
                    { name := some "../x", title := some "t",
                      url := some "u", version := some "1.0.0",
                      repoName := some "r", author := some "a" },
                  isManagedByHeadlampPlugin := .vBool true }) })]

/-- Provenance record of an installed copy of `okPkg`'s plugin at 1.0.0. -/
def installedAh : ArtifactHubRec :=
  { name := some "my-plugin", title := some "My Plugin",
    url := some "https://artifacthub.io/packages/headlamp/repo/my-plugin",
    version := some "1.0.0", repoName := some "repo", author := some "alice" }

/-- Manifest of the installed plugin. -/
def installedManifest : Manifest :=
  { name := some "my-plugin", version := some "1.0.0",
    artifacthub := some installedAh, isManagedByHeadlampPlugin := .vBool true }

/-- Folder of the installed plugin. -/
def installedFolder : PluginFolder :=
  { hasMainJs := true, packageJson := some (.parsed installedManifest) }

/-- An installed copy of `okPkg`'s plugin at version 1.0.0. -/
def installedRoot : Root := [("my-plugin", installedFolder)]

/-- The `PluginData` entry `list` produces for `installedRoot`. -/
def installedPD : PluginData :=
  { pluginName := "my-plugin", pluginTitle := some "My Plugin",
    pluginVersion := some "1.0.0", folderName := "my-plugin",
    artifacthubURL := some "https://artifacthub.io/packages/headlamp/repo/my-plugin",
    repoName := some "repo", author := some "alice",
    artifacthubVersion := some "1.0.0" }

/-- `okPkg` with an archive URL outside the allow-list. -/
def badUrlPkg : Pkg := { okPkg with archiveURL := some "https://evil.example.com/p.tar.gz" }

/-- `okPkg` with a traversal-shaped registry name. -/
def evilNamePkg : Pkg := { okPkg with name := "../x" }

/-- `okWorld` whose registry returns `evilNamePkg`. -/
def evilWorld : World := { okWorld with netMeta := fun _ => .resp true 200 evilNamePkg }

/-- A manifest whose managed flag is a non-empty string (truthy). -/
def strFlagManifest : Manifest :=
  { name := some "s-plugin", version := some "1.0.0",
    artifacthub := some installedAh, isManagedByHeadlampPlugin := .vStr "yes" }

/-- A manifest whose managed flag is a non-zero number (truthy). -/
def numFlagManifest : Manifest :=
  { name := some "n-plugin", version := some "1.0.0",
    artifacthub := some installedAh, isManagedByHeadlampPlugin := .vNum 2 }

end Headlamp

set_option maxRecDepth 10000

/-- FIPS 180-4 test vector: SHA-256 of the empty message. -/
example :
    Headlamp.hexEncode (Headlamp.sha256 []) =
      "e3b0c44298fc1c149afbf4c8996fb92427ae41e4649b934ca495991b7852b855" := by
  decide

/-- SHA-256 of "abc" (0x61 0x62 0x63). -/
example :
    Headlamp.hexEncode (Headlamp.sha256 [0x61, 0x62, 0x63]) =
      "ba7816bf8f01cfea414140de5dae2223b00361a396177a9cb410ff61f20015ad" := by
  decide

/-! # Theorems

Helper lemmas first, then one theorem per claim (with witnesses and
counterexamples as required). -/

namespace Headlamp

/-! ## Characterization lemmas for the string recognizers -/

theorem stripHead_some (p : List Char) :
    ∀ l r, stripHead p l = some r ↔ l = p ++ r := by
  induction p with
  | nil => intro l r; simp [stripHead]
  | cons c cs ih =>
    intro l r
    cases l with
    | nil => simp [stripHead]
    | cons d ds =>
      simp only [stripHead, List.cons_append, List.cons.injEq]
      by_cases h : c = d
      · subst h; rw [if_pos rfl, ih]; simp
      · rw [if_neg h]
        constructor
        · intro hh; exact Option.noConfusion hh
        · rintro ⟨hdc, _⟩; exact absurd hdc.symm h

theorem dropSeg_some :
    ∀ l r : List Char, dropSeg l = some r ↔ ∃ u, l = u ++ '/' :: r ∧ ∀ c ∈ u, c ≠ '/' := by
  intro l
  induction l with
  | nil =>
    intro r
    simp only [dropSeg]
    constructor
    · intro hh; exact Option.noConfusion hh
    · rintro ⟨u, hu, _⟩; exact absurd hu.symm (List.append_ne_nil_of_right_ne_nil u (by simp))
  | cons c cs ih =>
    intro r
    simp only [dropSeg]
    by_cases h : c = '/'
    · subst h; rw [if_pos rfl]
      constructor
      · intro hh
        injection hh with hh
        exact ⟨[], by simp [hh], by simp⟩
      · rintro ⟨u, hu, hall⟩
        cases u with
        | nil => simp only [List.nil_append, List.cons.injEq] at hu; rw [hu.2]
        | cons d ds =>
          simp only [List.cons_append, List.cons.injEq] at hu
          exact absurd hu.1.symm (hall d (by simp))
    · rw [if_neg h, ih]
      constructor
      · rintro ⟨u, rfl, hall⟩
        refine ⟨c :: u, rfl, ?_⟩
        intro x hx
        rcases List.mem_cons.mp hx with hx | hx
        · rw [hx]; exact h
        · exact hall x hx
      · rintro ⟨u, hu, hall⟩
        cases u with
        | nil => simp only [List.nil_append, List.cons.injEq] at hu; exact absurd hu.1 h
        | cons d ds =>
          simp only [List.cons_append, List.cons.injEq] at hu
          exact ⟨ds, hu.2, fun x hx => hall x (List.mem_cons.mpr (Or.inr hx))⟩

theorem takeSeg_some (l r : List Char) :
    takeSeg l = some r ↔ ∃ u, l = u ++ '/' :: r ∧ u ≠ [] ∧ ∀ c ∈ u, c ≠ '/' := by
  cases l with
  | nil =>
    simp only [takeSeg]
    constructor
    · intro hh; exact Option.noConfusion hh
    · rintro ⟨u, hu, _, _⟩; exact absurd hu.symm (List.append_ne_nil_of_right_ne_nil u (by simp))
  | cons c cs =>
    simp only [takeSeg]
    by_cases h : c = '/'
    · rw [if_pos h]
      constructor
      · intro hh; exact Option.noConfusion hh
      · rintro ⟨u, hu, hne, hall⟩
        cases u with
        | nil => exact absurd rfl hne
        | cons d ds =>
          simp only [List.cons_append, List.cons.injEq] at hu
          exact absurd (hu.1 ▸ h) (hall d (by simp))
    · rw [if_neg h, dropSeg_some]
      constructor
      · rintro ⟨u, rfl, hall⟩
        refine ⟨c :: u, rfl, by simp, ?_⟩
        intro x hx
        rcases List.mem_cons.mp hx with hx | hx
        · rw [hx]; exact h
        · exact hall x hx
      · rintro ⟨u, hu, hne, hall⟩
        cases u with
        | nil => exact absurd rfl hne
        | cons d ds =>
          simp only [List.cons_append, List.cons.injEq] at hu
          refine ⟨ds, ?_, fun x hx => hall x (List.mem_cons.mpr (Or.inr hx))⟩
          exact hu.2

theorem containsSeq_iff (pat : List Char) :
    ∀ l, containsSeq pat l = true ↔ ∃ pre suf, l = pre ++ (pat ++ suf) := by
  intro l
  induction l with
  | nil =>
    simp only [containsSeq, Option.isSome_iff_exists]
    constructor
    · rintro ⟨r, hr⟩
      exact ⟨[], r, by simpa using (stripHead_some pat [] r).mp hr⟩
    · rintro ⟨pre, suf, hps⟩
      refine ⟨suf, (stripHead_some pat [] suf).mpr ?_⟩
      have h3 : pre = [] ∧ pat = [] ∧ suf = [] := by simpa using hps
      simp [h3.2.1, h3.2.2]
  | cons c cs ih =>
    simp only [containsSeq, Bool.or_eq_true, Option.isSome_iff_exists, ih]
    constructor
    · rintro (⟨r, hr⟩ | ⟨pre, suf, rfl⟩)
      · exact ⟨[], r, by simpa using (stripHead_some pat (c :: cs) r).mp hr⟩
      · exact ⟨c :: pre, suf, rfl⟩
    · rintro ⟨pre, suf, hps⟩
      cases pre with
      | nil => exact Or.inl ⟨suf, (stripHead_some pat (c :: cs) suf).mpr (by simpa using hps)⟩
      | cons d ds =>
        simp only [List.cons_append, List.cons.injEq] at hps
        exact Or.inr ⟨ds, suf, hps.2⟩

theorem optStep_iff (o : Option (List Char)) (g : List Char → Bool) :
    optStep o g = true ↔ ∃ y, o = some y ∧ g y = true := by
  cases o <;> simp [optStep]

theorem tailOK_iff (t : List Char) : tailOK t = true ↔ NoTerm t := by
  simp [tailOK, NoTerm, List.all_eq_true, Bool.not_eq_true']

theorem hostTest_iff (head : List Char) (kws : List (List Char)) (l : List Char) :
    hostTest head kws l = true ↔ HostSpec head kws l := by
  unfold hostTest HostSpec
  constructor
  · intro hh
    obtain ⟨r0, h0, hh⟩ := (optStep_iff _ _).mp hh
    obtain ⟨r1, h1, hh⟩ := (optStep_iff _ _).mp hh
    obtain ⟨r2, h2, hh⟩ := (optStep_iff _ _).mp hh
    obtain ⟨kw, hmem, hh⟩ := List.any_eq_true.mp hh
    obtain ⟨t, ht, htail⟩ := (optStep_iff _ _).mp hh
    obtain ⟨u, rfl, hu1, hu2⟩ := (takeSeg_some _ _).mp h1
    obtain ⟨rr, rfl, hr1, hr2⟩ := (takeSeg_some _ _).mp h2
    rw [stripHead_some] at h0 ht
    subst ht
    exact ⟨u, rr, kw, t, hmem, ⟨hu1, hu2⟩, ⟨hr1, hr2⟩, (tailOK_iff t).mp htail, h0⟩
  · rintro ⟨u, rr, kw, t, hmem, hu, hr, ht, rfl⟩
    rw [optStep_iff]
    refine ⟨u ++ '/' :: (rr ++ '/' :: (kw ++ t)), (stripHead_some _ _ _).mpr rfl, ?_⟩
    rw [optStep_iff]
    refine ⟨rr ++ '/' :: (kw ++ t), (takeSeg_some _ _).mpr ⟨u, rfl, hu.1, hu.2⟩, ?_⟩
    rw [optStep_iff]
    refine ⟨kw ++ t, (takeSeg_some _ _).mpr ⟨rr, rfl, hr.1, hr.2⟩, ?_⟩
    rw [List.any_eq_true]
    refine ⟨kw, hmem, ?_⟩
    rw [optStep_iff]
    exact ⟨t, (stripHead_some _ _ _).mpr rfl, (tailOK_iff t).mpr ht⟩

theorem validateArchiveURL_iff (s : String) :
    validateArchiveURL s = true ↔ AllowedBySpec s := by
  unfold validateArchiveURL AllowedBySpec
  simp only [Bool.or_eq_true, hostTest_iff, startsWithS, Option.isSome_iff_exists]
  constructor
  · rintro (((h | h) | h) | ⟨r, hr⟩)
    · exact Or.inl h
    · exact Or.inr (Or.inl h)
    · exact Or.inr (Or.inr (Or.inl h))
    · exact Or.inr (Or.inr (Or.inr ⟨r, (stripHead_some _ _ _).mp hr⟩))
  · rintro (h | h | h | ⟨t, ht⟩)
    · exact Or.inl (Or.inl (Or.inl h))
    · exact Or.inl (Or.inl (Or.inr h))
    · exact Or.inl (Or.inr h)
    · exact Or.inr ⟨t, (stripHead_some _ _ _).mpr ht⟩

end Headlamp

namespace Headlamp

/-! ## Reduction lemmas for the pipelines -/

theorem fetchPluginInfo_ok (w : World) (cb : Bool) (u : String) (st : Nat) (pkg : Pkg)
    (hpre : startsWithS u ahPages = true) (hab : w.aborted = false)
    (hmeta : w.netMeta (replaceFirstS u ahPages ahAPI) = .resp true st pkg) :
    fetchPluginInfo w cb (some u) =
      ⟨evIf cb (.info "Fetching Plugin Metadata"),
       [.netFetch (replaceFirstS u ahPages ahAPI)], .ok pkg⟩ := by
  unfold fetchPluginInfo
  simp [hpre, hab, hmeta]

theorem compatCheck_events_nocb (w : World) (hv : String) (pkg : Pkg) :
    (compatCheck w false hv pkg).1 = [] := by
  unfold compatCheck
  repeat' split
  all_goals simp [evIf]

theorem fetchPluginInfo_events_nocb (w : World) (url : Option String) :
    (fetchPluginInfo w false url).events = [] := by
  unfold fetchPluginInfo
  repeat' split
  all_goals simp [evIf]
  all_goals repeat' split
  all_goals simp_all [evIf]

theorem dlea_events_nocb (w : World) (pkgO : Option Pkg) (hv : String) :
    (downloadExtractArchive w pkgO hv false).events = [] := by
  unfold downloadExtractArchive
  repeat' split
  all_goals simp [evIf, compatCheck_events_nocb]
  all_goals repeat' split
  all_goals simp_all [evIf, compatCheck_events_nocb]

theorem ifpp_events_nocb (w : World) (pkgO : Option Pkg) (hv : String) (root : Root) :
    (installFromPluginPkg w false pkgO hv root).events = [] := by
  unfold installFromPluginPkg
  repeat' split
  all_goals simp [evIf, dlea_events_nocb]
  all_goals repeat' split
  all_goals simp_all [evIf, dlea_events_nocb]

theorem ifpp_result_cb (w : World) (pkgO : Option Pkg) (hv : String) (root : Root) :
    (installFromPluginPkg w true pkgO hv root).result = .ok () := by
  unfold installFromPluginPkg
  repeat' split
  all_goals simp
  all_goals repeat' split
  all_goals simp_all

theorem install_result_cb (w : World) (url : Option String) (hv : String) (root : Root) :
    (install w true url hv root).result = .ok () := by
  unfold install
  repeat' split
  all_goals simp [ifpp_result_cb]
  all_goals repeat' split
  all_goals simp_all [ifpp_result_cb]

theorem install_events_nocb (w : World) (url : Option String) (hv : String) (root : Root) :
    (install w false url hv root).events = [] := by
  unfold install
  repeat' split
  all_goals simp [fetchPluginInfo_events_nocb, ifpp_events_nocb]
  all_goals repeat' split
  all_goals simp_all [fetchPluginInfo_events_nocb, ifpp_events_nocb]

theorem updateCore_events_nocb (w : World) (name hv : String) (root : Root) :
    (updateCore w false name hv root).events = [] := by
  unfold updateCore
  repeat' split
  all_goals simp [fetchPluginInfo_events_nocb, dlea_events_nocb]
  all_goals repeat' split
  all_goals simp_all [fetchPluginInfo_events_nocb, dlea_events_nocb]

theorem update_result_cb (w : World) (name hv : String) (root : Root) :
    (update w true name hv root).result = .ok () := by
  unfold update
  repeat' split
  all_goals simp
  all_goals repeat' split
  all_goals simp_all

theorem update_events_nocb (w : World) (name hv : String) (root : Root) :
    (update w false name hv root).events = [] := by
  unfold update
  repeat' split
  all_goals simp [evIf, updateCore_events_nocb]
  all_goals repeat' split
  all_goals simp_all [evIf, updateCore_events_nocb]

theorem uninstall_result_cb (name : String) (root : Root) :
    (uninstall name true root).result = .ok () := by
  unfold uninstall
  repeat' split
  all_goals simp_all

theorem uninstall_events_nocb (name : String) (root : Root) :
    (uninstall name false root).events = [] := by
  unfold uninstall
  repeat' split
  all_goals simp_all [evIf]

end Headlamp

namespace Headlamp

/-- Claim C3: `validateArchiveURL` returns true exactly for the allow-listed URL
shapes (GitHub releases/archive, Bitbucket downloads/get, GitLab
dash-archive or releases, or the pinned fixture origin), and any other
archive URL makes `downloadExtractArchive` abort with the
invalid-archive-url error before any network or filesystem action. -/
theorem c3_archive_url_allowlist :
    (∀ s : String, validateArchiveURL s = true ↔ AllowedBySpec s) ∧
    (∀ (w : World) (pkg : Pkg) (hv : String) (cb : Bool),
      w.aborted = false →
      validatePluginName pkg.name = true →
      validateArchiveURLOpt pkg.archiveURL = false →
      (downloadExtractArchive w (some pkg) hv cb).result
          = .error (.msg ("Invalid plugin/archive-url:" ++ showURL pkg.archiveURL)) ∧
      (downloadExtractArchive w (some pkg) hv cb).actions = []) := by
  constructor
  · exact validateArchiveURL_iff
  · intro w pkg hv cb hab hname hurl
    unfold downloadExtractArchive
    simp [hab, hname, hurl]

/-- Witness for claim C3 at concrete URLs. -/
theorem c3_archive_url_allowlist_witness :
    AllowedBySpec "https://github.com/owner/repo/releases/download/v1.0/p.tar.gz" ∧
    validateArchiveURL "https://evil.example.com/p.tar.gz" = false ∧
    (downloadExtractArchive okWorld (some badUrlPkg) "" false).result
        = .error (.msg "Invalid plugin/archive-url:https://evil.example.com/p.tar.gz") ∧
    (downloadExtractArchive okWorld (some badUrlPkg) "" false).actions = [] := by
  refine ⟨(c3_archive_url_allowlist.1 _).mp (by decide), by decide, ?_, ?_⟩
  · have h := (c3_archive_url_allowlist.2 okWorld badUrlPkg "" false rfl (by decide) (by decide)).1
    simpa using h
  · exact (c3_archive_url_allowlist.2 okWorld badUrlPkg "" false rfl (by decide) (by decide)).2


/-- Claim C2 (amended): names containing a path separator or `..` always fail
`validatePluginName`; `install` and `update` abort on the
registry-supplied name right after metadata fetch, with no further
network action and no filesystem action at all (in particular none keyed
by the name), leaving the plugins root untouched. -/
theorem c2_traversal_name_guard :
    (∀ s : String,
      ('/' ∈ s.data ∨ '\\' ∈ s.data ∨ ∃ pre suf, s.data = pre ++ ('.' :: '.' :: suf)) →
      validatePluginName s = false) ∧
    (∀ (w : World) (cb : Bool) (u hv : String) (root : Root) (st : Nat) (pkg : Pkg),
      startsWithS u ahPages = true → w.aborted = false →
      w.netMeta (replaceFirstS u ahPages ahAPI) = .resp true st pkg →
      validatePluginName pkg.name = false →
      (install w cb (some u) hv root).actions = [.netFetch (replaceFirstS u ahPages ahAPI)] ∧
      (install w cb (some u) hv root).root = root ∧
      (install w cb (some u) hv root).result
          = (if cb then .ok () else .error (.msg "Invalid plugin name")) ∧
      (cb = true → .error "Invalid plugin name" ∈ (install w cb (some u) hv root).events)) ∧
    (∀ (w : World) (cb : Bool) (name hv : String) (root : Root) (plugins : List PluginData)
       (plugin : PluginData) (fl : PluginFolder) (pj : Manifest) (ah : ArtifactHubRec)
       (u : String) (st : Nat) (pkg : Pkg) (cur : String),
      listPlugins root = .ok plugins →
      plugins.find? (fun p => p.pluginName = name) = some plugin →
      getFolder root plugin.folderName = some fl →
      fl.packageJson = some (.parsed pj) →
      plugin.artifacthubURL = some u →
      startsWithS u ahPages = true → w.aborted = false →
      w.netMeta (replaceFirstS u ahPages ahAPI) = .resp true st pkg →
      pj.artifacthub = some ah → ah.version = some cur →
      w.semverLte pkg.version cur = some false →
      validatePluginName pkg.name = false →
      (update w cb name hv root).actions = [.netFetch (replaceFirstS u ahPages ahAPI)] ∧
      (update w cb name hv root).root = root ∧
      (update w cb name hv root).result
          = (if cb then .ok () else .error (.msg "Invalid plugin name"))) := by
  refine ⟨?_, ?_, ?_⟩
  · intro s h
    have hx : (s.data.any (fun c => c = '/' || c = '\\')
        || containsSeq ['.', '.'] s.data) = true := by
      rw [Bool.or_eq_true]
      rcases h with h | h | ⟨pre, suf, hps⟩
      · exact Or.inl (List.any_eq_true.mpr ⟨'/', h, by simp⟩)
      · exact Or.inl (List.any_eq_true.mpr ⟨'\\', h, by simp⟩)
      · exact Or.inr ((containsSeq_iff _ _).mpr ⟨pre, suf, hps⟩)
    unfold validatePluginName
    rw [hx]
    rfl
  · intro w cb u hv root st pkg hpre hab hmeta hname
    have hf := fetchPluginInfo_ok w cb u st pkg hpre hab hmeta
    have hd : downloadExtractArchive w (some pkg) hv cb = ⟨[], [], .error (.msg "Invalid plugin name")⟩ := by
      unfold downloadExtractArchive
      simp [hab, hname]
    refine ⟨?_, ?_, ?_, ?_⟩
    · simp [install, installFromPluginPkg, hf, hd]
    · simp [install, installFromPluginPkg, hf, hd]
    · simp [install, installFromPluginPkg, hf, hd, Err.message]
    · intro hcb
      subst hcb
      simp [install, installFromPluginPkg, hf, hd, evIf, Err.message]
  · intro w cb name hv root plugins plugin fl pj ah u st pkg cur
    intro hlist hfind hfold hpj hui hpre hab hmeta hah hcur hlte hname
    have hf := fetchPluginInfo_ok w cb u st pkg hpre hab hmeta
    have hd : downloadExtractArchive w (some pkg) hv cb = ⟨[], [], .error (.msg "Invalid plugin name")⟩ := by
      unfold downloadExtractArchive
      simp [hab, hname]
    have hcore : updateCore w cb name hv root =
        ⟨evIf cb (.info "Fetching Plugin Metadata"),
         [.netFetch (replaceFirstS u ahPages ahAPI)], root,
         .error (.msg "Invalid plugin name")⟩ := by
      simp [updateCore, hlist, hfind, hfold, hpj, hui, hf, hah, hcur, hlte, hd]
    refine ⟨?_, ?_, ?_⟩
    · simp [update, hcore]
    · simp [update, hcore]
    · simp [update, hcore, Err.message]


/-- Counterexample to claim C2 as stated: `uninstall` performs no plugin-name
validation, so uninstalling a managed folder whose manifest declares the
traversal-shaped name `../x` completes successfully (removing the folder)
instead of aborting with a descriptive error. -/
theorem c2_counterexample :
    validatePluginName "../x" = false ∧
    uninstall "../x" false evilNameRoot = ⟨[], [Action.rmPluginDir "evil"], [], .ok ()⟩ := by
  decide

set_option maxRecDepth 10000 in
/-- Witness for claim C2's amended theorem at concrete inputs: a registry
package named `../x` makes install and update abort with the plugins root
untouched. -/
theorem c2_traversal_name_guard_witness :
    validatePluginName "../x" = false ∧
    (install evilWorld false (some "https://artifacthub.io/packages/headlamp/repo/my-plugin") "" []).root = [] ∧
    (update evilWorld false "my-plugin" "" installedRoot).root = installedRoot := by
  refine ⟨by decide, ?_, ?_⟩
  · have h := (c2_traversal_name_guard.2.1 evilWorld false
      "https://artifacthub.io/packages/headlamp/repo/my-plugin" "" [] 200 evilNamePkg
      (by decide) rfl rfl (by decide)).2.1
    exact h
  · have h := (c2_traversal_name_guard.2.2 evilWorld false "my-plugin" "" installedRoot
      [installedPD] installedPD installedFolder installedManifest installedAh
      "https://artifacthub.io/packages/headlamp/repo/my-plugin" 200 evilNamePkg "1.0.0"
      (by decide) (by decide) (by decide) (by decide) (by decide)
      (by decide) rfl rfl (by decide) (by decide) rfl (by decide)).2.1
    exact h

/-- Claim C4 (amended): the two reporting channels are mutually exclusive —
with a progress callback attached no operation ever throws, and without
one no operation ever emits an event; failures then propagate as thrown
errors.  (The per-operation terminal-event count is not always one; see
the counterexample.) -/
theorem c4_reporting_channels (w : World) (url : Option String) (name hv : String) (root : Root) :
    ((install w true url hv root).result = .ok () ∧
     (update w true name hv root).result = .ok () ∧
     (uninstall name true root).result = .ok () ∧
     (listOp true root).2 = .ok none) ∧
    ((install w false url hv root).events = [] ∧
     (update w false name hv root).events = [] ∧
     (uninstall name false root).events = [] ∧
     (listOp false root).1 = []) := by
  refine ⟨⟨install_result_cb w url hv root, update_result_cb w name hv root,
           uninstall_result_cb name root, ?_⟩,
          ⟨install_events_nocb w url hv root, update_events_nocb w name hv root,
           uninstall_events_nocb name root, ?_⟩⟩
  · unfold listOp
    split <;> simp
  · unfold listOp
    split <;> simp

set_option maxRecDepth 10000 in
/-- Counterexample to claim C4 as stated: an `install` whose metadata URL is
rejected emits three terminal error events when a callback is attached —
one from `fetchPluginInfo`'s own catch, one from `install`'s catch, and
one from `installFromPluginPkg` after it is invoked with the undefined
metadata — not exactly one. -/
theorem c4_counterexample :
    ((install okWorld true (some "https://example.com/x") "" []).events.countP
        Event.isTerminal) = 3 := by
  decide

/-- Claim C8: `moveDirs` copies the full tree before removing the source;
on success the destination holds the source tree and the source is gone,
and on any failure (including a copy failure, which aborts before the
remove) the source is intact. -/
theorem c8_movedirs_promote {α : Type} (cpFails rmFails : Bool) (partialDst : Option α)
    (s : MoveState α) :
    ((moveDirs cpFails rmFails partialDst s).2 = .ok () →
      (moveDirs cpFails rmFails partialDst s).1.src = none ∧
      (moveDirs cpFails rmFails partialDst s).1.dst = s.src) ∧
    ((moveDirs cpFails rmFails partialDst s).2 ≠ .ok () →
      (moveDirs cpFails rmFails partialDst s).1.src = s.src) ∧
    (cpFails = true →
      (moveDirs cpFails rmFails partialDst s).2 ≠ .ok () ∧
      (moveDirs cpFails rmFails partialDst s).1.src = s.src) := by
  unfold moveDirs
  cases hs : s.src <;> cases cpFails <;> cases rmFails <;> simp [hs]

/-- Witness for claim C8 at concrete move states. -/
theorem c8_movedirs_promote_witness :
    (moveDirs false false none ⟨some 7, none⟩).1.src = (none : Option Nat) ∧
    (moveDirs false false none (⟨some 7, none⟩ : MoveState Nat)).1.dst = some 7 ∧
    (moveDirs true false none (⟨some 7, none⟩ : MoveState Nat)).1.src = some 7 := by
  refine ⟨?_, ?_, ?_⟩
  · exact ((c8_movedirs_promote false false none ⟨some 7, none⟩).1 (by decide)).1
  · exact ((c8_movedirs_promote false false none ⟨some 7, none⟩).1 (by decide)).2
  · exact ((c8_movedirs_promote true false none ⟨some 7, none⟩).2.2 rfl).2

/-- Claim C9 (amended): when the cancellation signal has already fired, the
metadata HTTP request is never issued; the call fails as cancelled
whenever the URL passes the registry-prefix check (otherwise the
invalid-URL error precedes the cancelled failure). -/
theorem c9_prefired_signal (w : World) (cb : Bool) (u : String)
    (hab : w.aborted = true) :
    (fetchPluginInfo w cb (some u)).actions = [] ∧
    (startsWithS u ahPages = true →
      (fetchPluginInfo w cb (some u)).result = .error .aborted) := by
  unfold fetchPluginInfo
  cases hp : startsWithS u ahPages <;> simp [hp, hab]

/-- Counterexample to claim C9 as stated: with a pre-fired signal but an
invalid registry URL, `fetchPluginInfo` fails with the invalid-URL error,
not as cancelled (the request is still never issued). -/
theorem c9_counterexample :
    (fetchPluginInfo firedWorld false (some "https://example.com/pkg")).actions = [] ∧
    (fetchPluginInfo firedWorld false (some "https://example.com/pkg")).result
        = .error (.msg "Invalid URL. Please provide a valid URL from ArtifactHub.") ∧
    (fetchPluginInfo firedWorld false (some "https://example.com/pkg")).result
        ≠ .error .aborted := by
  decide

/-- Witness for claim C9's amended theorem at a concrete registry URL. -/
theorem c9_prefired_signal_witness :
    (fetchPluginInfo firedWorld false
        (some "https://artifacthub.io/packages/headlamp/repo/my-plugin")).actions = [] ∧
    (fetchPluginInfo firedWorld false
        (some "https://artifacthub.io/packages/headlamp/repo/my-plugin")).result
      = .error .aborted :=
  ⟨(c9_prefired_signal firedWorld false _ rfl).1,
   (c9_prefired_signal firedWorld false _ rfl).2 (by decide)⟩

/-- Claim C10: `checkValidPluginFolder` accepts any truthy
`isManagedByHeadlampPlugin` value — a non-empty string or a non-zero
number marks the folder managed, and such a folder is returned by
`list` (hence eligible for update and uninstall, which gate on the same
check). -/
theorem c10_truthy_managed_flag :
    (∀ (m : Manifest) (s : String), m.isManagedByHeadlampPlugin = .vStr s → s ≠ "" →
      checkValidFolder ⟨true, some (.parsed m)⟩ = .ok true) ∧
    (∀ (m : Manifest) (n : Int), m.isManagedByHeadlampPlugin = .vNum n → n ≠ 0 →
      checkValidFolder ⟨true, some (.parsed m)⟩ = .ok true) ∧
    (∀ (fname : String) (m : Manifest) (ah : ArtifactHubRec),
      m.artifacthub = some ah → truthy m.isManagedByHeadlampPlugin = true →
      ∃ pd, listPlugins [(fname, ⟨true, some (.parsed m)⟩)] = .ok [pd] ∧
        pd.folderName = fname) := by
  refine ⟨?_, ?_, ?_⟩
  · intro m s hm hs
    simp [checkValidFolder, truthy, hm, hs]
  · intro m n hm hn
    simp [checkValidFolder, truthy, hm, hn]
  · intro fname m ah hah htr
    have h1 : listPlugins [(fname, ⟨true, some (.parsed m)⟩)] =
        .ok [{ pluginName := match m.name with
                             | some s => if s = "" then fname else s
                             | none => fname,
               pluginTitle := ah.title,
               pluginVersion := m.version.bind fun s => if s = "" then none else some s,
               folderName := fname, artifacthubURL := ah.url, repoName := ah.repoName,
               author := ah.author, artifacthubVersion := ah.version }] := by
      unfold listPlugins
      simp [listGo, checkValidFolder, htr, mkPluginData, hah]
    exact ⟨_, h1, rfl⟩

/-- Witness for claim C10 at concrete manifests with flag values
`"yes"` and `2`. -/
theorem c10_truthy_managed_flag_witness :
    checkValidFolder ⟨true, some (.parsed strFlagManifest)⟩ = .ok true ∧
    checkValidFolder ⟨true, some (.parsed numFlagManifest)⟩ = .ok true ∧
    ∃ pd, listPlugins [("sf", ⟨true, some (.parsed strFlagManifest)⟩)] = .ok [pd] ∧
      pd.folderName = "sf" :=
  ⟨c10_truthy_managed_flag.1 strFlagManifest "yes" rfl (by decide),
   c10_truthy_managed_flag.2.1 numFlagManifest 2 rfl (by decide),
   c10_truthy_managed_flag.2.2 "sf" strFlagManifest installedAh rfl (by decide)⟩

end Headlamp

namespace Headlamp

set_option maxRecDepth 10000 in
/-- Claim C1 (amended): once a run of `downloadExtractArchive` reaches the
download, extraction begins iff the lowercase SHA-256 hex digest of the
downloaded bytes is exactly equal (case-sensitively) to the declared
checksum after optional `sha256:`/`SHA256:` prefix stripping; any
mismatch raises the fatal `Checksum mismatch.` error and extraction never
begins. -/
theorem c1_checksum_gate (w : World) (pkg : Pkg) (hv : String) (cb : Bool)
    (u c0 : String) (st : Nat) (bytes : List Nat)
    (hab : w.aborted = false)
    (hname : validatePluginName pkg.name = true)
    (hurlv : pkg.archiveURL = some u)
    (hvu : validateArchiveURL u = true)
    (hcs : pkg.archiveChecksum = some c0)
    (hc0 : c0 ≠ "")
    (hcpt : (compatCheck w cb hv pkg).2 = .ok ())
    (hnet : w.netArch u = .resp true st (some bytes)) :
    (Action.extract ∈ (downloadExtractArchive w (some pkg) hv cb).actions
        ↔ hexEncode (sha256 bytes) = normalizeChecksum c0) ∧
    (hexEncode (sha256 bytes) ≠ normalizeChecksum c0 →
      (downloadExtractArchive w (some pkg) hv cb).result
          = .error (.msg "Checksum mismatch.") ∧
      Action.extract ∉ (downloadExtractArchive w (some pkg) hv cb).actions) := by
  by_cases hd : hexEncode (sha256 bytes) = normalizeChecksum c0
  · refine ⟨⟨fun _ => hd, fun _ => ?_⟩, fun hne => absurd hd hne⟩
    unfold downloadExtractArchive
    simp only [hab, hname, hurlv, hvu, hcs, validateArchiveURLOpt, Bool.not_true,
      Bool.false_eq_true, if_false, hcpt, hnet, hd]
    simp [hc0, hd]
    cases hx : w.extractRes bytes with
    | error e => simp [hx]
    | ok tmp =>
      cases hpj : tmp.packageJson with
      | none => simp [hx, hpj]
      | some pf => cases pf <;> simp [hx, hpj]
  · refine ⟨⟨fun hmem => ?_, fun hh => absurd hh hd⟩, fun _ => ?_⟩
    · exfalso
      have hred : downloadExtractArchive w (some pkg) hv cb =
          ⟨(compatCheck w cb hv pkg).1 ++ evIf cb (.info "Downloading Plugin")
             ++ evIf cb (.info "Plugin Downloaded"),
           [Action.mkTempDir, Action.mkNamedDir pkg.name, Action.netDownload u],
           .error (.msg "Checksum mismatch.")⟩ := by
        unfold downloadExtractArchive
        simp [hab, hname, hurlv, hvu, hcs, hc0, validateArchiveURLOpt, hcpt, hnet, hd]
      rw [hred] at hmem
      simp at hmem
    · have hred : downloadExtractArchive w (some pkg) hv cb =
          ⟨(compatCheck w cb hv pkg).1 ++ evIf cb (.info "Downloading Plugin")
             ++ evIf cb (.info "Plugin Downloaded"),
           [Action.mkTempDir, Action.mkNamedDir pkg.name, Action.netDownload u],
           .error (.msg "Checksum mismatch.")⟩ := by
        unfold downloadExtractArchive
        simp [hab, hname, hurlv, hvu, hcs, hc0, validateArchiveURLOpt, hcpt, hnet, hd]
      rw [hred]
      simp


set_option maxRecDepth 100000 in
/-- Counterexample to claim C1 as stated: a declared checksum that equals
the digest up to hex-digit case (upper-case hex) is rejected with
`Checksum mismatch.` and extraction never proceeds — the comparison is
case-sensitive, not case-insensitive. -/
theorem c1_counterexample :
    eqIgnoreCase (normalizeChecksum ("sha256:" ++ emptyDigestUpper))
        (hexEncode (sha256 [])) = true ∧
    (downloadExtractArchive okWorld (some upperPkg) "" false).result
        = .error (.msg "Checksum mismatch.") ∧
    Action.extract ∉ (downloadExtractArchive okWorld (some upperPkg) "" false).actions := by
  decide

set_option maxRecDepth 100000 in
/-- Witness for claim C1's amended theorem: with a matching lowercase
declared checksum the fixture run reaches extraction and succeeds. -/
theorem c1_checksum_gate_witness :
    Action.extract ∈ (downloadExtractArchive okWorld (some okPkg) "" false).actions ∧
    (downloadExtractArchive okWorld (some okPkg) "" false).result.isOk = true := by
  refine ⟨?_, by decide⟩
  exact (c1_checksum_gate okWorld okPkg "" false
    "https://github.com/o/r/releases/download/v1/a.tar.gz" ("sha256:" ++ emptyDigest)
    200 [] rfl (by decide) rfl (by decide) rfl (by decide) rfl rfl).1.mpr (by decide)


/-- Claim C5: when the registry-reported version is less than or equal to
the installed provenance version (semver.lte true), `update` fails with
`No updates available` and the plugins root is left unchanged; the
installed folder is replaced only when the comparison says strictly
greater (semver.lte false). -/
theorem c5_update_version_gate (w : World) (cb : Bool) (name hv : String) (root : Root)
    (plugins : List PluginData) (plugin : PluginData) (fl : PluginFolder) (pj : Manifest)
    (ah : ArtifactHubRec) (u : String) (st : Nat) (pkg : Pkg) (cur : String)
    (hlist : listPlugins root = .ok plugins)
    (hfind : plugins.find? (fun p => p.pluginName = name) = some plugin)
    (hfold : getFolder root plugin.folderName = some fl)
    (hpj : fl.packageJson = some (.parsed pj))
    (hui : plugin.artifacthubURL = some u)
    (hpre : startsWithS u ahPages = true)
    (hab : w.aborted = false)
    (hmeta : w.netMeta (replaceFirstS u ahPages ahAPI) = .resp true st pkg)
    (hah : pj.artifacthub = some ah)
    (hcur : ah.version = some cur) :
    (w.semverLte pkg.version cur = some true →
      (update w cb name hv root).root = root ∧
      (update w cb name hv root).result
          = (if cb then .ok () else .error (.msg "No updates available")) ∧
      (cb = true →
        .error "No updates available" ∈ (update w cb name hv root).events)) ∧
    ((update w cb name hv root).root ≠ root →
      w.semverLte pkg.version cur = some false) := by
  have hf := fetchPluginInfo_ok w cb u st pkg hpre hab hmeta
  constructor
  · intro hlte
    have hcore : updateCore w cb name hv root =
        ⟨evIf cb (.info "Fetching Plugin Metadata"),
         [.netFetch (replaceFirstS u ahPages ahAPI)], root,
         .error (.msg "No updates available")⟩ := by
      simp [updateCore, hlist, hfind, hfold, hpj, hui, hf, hah, hcur, hlte]
    refine ⟨by simp [update, hcore], by simp [update, hcore, Err.message], ?_⟩
    intro hcb
    subst hcb
    simp [update, hcore, Err.message, evIf]
  · intro hroot
    rcases hq : w.semverLte pkg.version cur with _ | b
    · exfalso
      apply hroot
      have hcore : updateCore w cb name hv root =
          ⟨evIf cb (.info "Fetching Plugin Metadata"),
           [.netFetch (replaceFirstS u ahPages ahAPI)], root,
           .error (.msg "Invalid Version")⟩ := by
        simp [updateCore, hlist, hfind, hfold, hpj, hui, hf, hah, hcur, hq]
      simp [update, hcore]
    · cases b with
      | false => rfl
      | true =>
        exfalso
        apply hroot
        have hcore : updateCore w cb name hv root =
            ⟨evIf cb (.info "Fetching Plugin Metadata"),
             [.netFetch (replaceFirstS u ahPages ahAPI)], root,
             .error (.msg "No updates available")⟩ := by
          simp [updateCore, hlist, hfind, hfold, hpj, hui, hf, hah, hcur, hq]
        simp [update, hcore]

set_option maxRecDepth 10000 in
/-- Witness for claim C5 at the concrete installed fixture. -/
theorem c5_update_version_gate_witness :
    (update lteTrueWorld false "my-plugin" "" installedRoot).root = installedRoot ∧
    (update lteTrueWorld false "my-plugin" "" installedRoot).result
        = .error (.msg "No updates available") := by
  have h := (c5_update_version_gate lteTrueWorld false "my-plugin" "" installedRoot
    [installedPD] installedPD installedFolder installedManifest installedAh
    "https://artifacthub.io/packages/headlamp/repo/my-plugin" 200 okPkg "1.0.0"
    (by decide) (by decide) (by decide) (by decide) (by decide) (by decide)
    rfl rfl (by decide) (by decide)).1 rfl
  exact ⟨h.1, h.2.1⟩


/-- Claim C6 is right and the code has a bug: a folder that passes the
validity check (exists, has `main.js` and `package.json`, managed flag
set) but whose manifest lacks the `artifacthub` object makes `list`
throw a `TypeError` (the unguarded `packageJson.artifacthub.title` read)
instead of returning the entry — the whole enumeration fails rather than
listing the valid folder. -/
theorem c6_list_crashes_on_missing_provenance :
    checkValidFolder noAhFolder = .ok true ∧
    listPlugins noAhRoot = .error .typeError ∧
    (listOp false noAhRoot).2 = .error .typeError ∧
    (listOp true noAhRoot).1 = [Event.error Err.typeError.message] := by
  decide

theorem getFolder_eq_of_mem (root : Root) (hnd : (root.map Prod.fst).Nodup)
    (fname : String) (fl : PluginFolder) (hm : (fname, fl) ∈ root) :
    getFolder root fname = some fl := by
  induction root with
  | nil => cases hm
  | cons hd tl ih =>
    rcases List.mem_cons.mp hm with heq | hmem
    · subst heq
      simp [getFolder, List.find?]
    · have hnd2 := List.nodup_cons.mp hnd
      have hne : ¬hd.1 = fname := by
        intro hEq
        apply hnd2.1
        rw [hEq]
        exact List.mem_map.mpr ⟨(fname, fl), hmem, rfl⟩
      unfold getFolder
      rw [List.find?_cons_of_neg _ (by simp [hne])]
      exact ih hnd2.2 hmem

theorem uninstallCore_ok (name : String) (root root2 : Root)
    (hc : uninstallCore name root = .ok root2) :
    ∃ fn fl, getFolder root fn = some fl ∧ checkValidFolder fl = .ok true ∧
      root2 = removeFolder root fn := by
  unfold uninstallCore at hc
  cases hl : listPlugins root with
  | error e => simp only [hl] at hc; exact absurd hc (by simp)
  | ok plugins =>
    simp only [hl] at hc
    cases hf : plugins.find? (fun p => p.pluginName = name) with
    | none => simp only [hf] at hc; exact absurd hc (by simp)
    | some plugin =>
      simp only [hf] at hc
      cases hv : checkValidAt root plugin.folderName with
      | error e => simp only [hv] at hc; exact absurd hc (by simp)
      | ok b =>
        simp only [hv] at hc
        cases b with
        | false => simp at hc
        | true =>
          cases hg : getFolder root plugin.folderName with
          | none => simp only [hg] at hc; simp at hc
          | some fl =>
            simp only [hg] at hc
            refine ⟨plugin.folderName, fl, hg, ?_, (Except.ok.inj hc).symm⟩
            unfold checkValidAt at hv
            rw [hg] at hv
            exact hv

/-- Claim C7 (amended): `uninstall` only ever removes a folder that passes
the folder-validity check; a folder lacking the managed flag always
survives the call, whose failure is reported as `Plugin not found`
(the invalid folder is invisible to the `list`-based lookup, so the
invalid-plugin-folder branch is unreachable in a sequential run). -/
theorem c7_uninstall_guard (name : String) (cb : Bool) (root : Root) :
    ((uninstall name cb root).root = root ∨
      ∃ fn fl, getFolder root fn = some fl ∧ checkValidFolder fl = .ok true ∧
        (uninstall name cb root).root = removeFolder root fn) ∧
    (∀ fname fl, (root.map Prod.fst).Nodup → (fname, fl) ∈ root →
      checkValidFolder fl ≠ .ok true →
      (fname, fl) ∈ (uninstall name cb root).root) := by
  have hpart1 : (uninstall name cb root).root = root ∨
      ∃ fn fl, getFolder root fn = some fl ∧ checkValidFolder fl = .ok true ∧
        (uninstall name cb root).root = removeFolder root fn := by
    cases hc : uninstallCore name root with
    | error e =>
      left
      unfold uninstall
      rw [hc]
      cases cb <;> simp
    | ok root2 =>
      right
      obtain ⟨fn, fl, hg, hvd, heq⟩ := uninstallCore_ok name root root2 hc
      refine ⟨fn, fl, hg, hvd, ?_⟩
      unfold uninstall
      rw [hc]
      simpa using heq
  refine ⟨hpart1, ?_⟩
  intro fname fl hnd hmem hnv
  rcases hpart1 with h | ⟨fn, fl2, hg, hv2, heq⟩
  · rw [h]; exact hmem
  · rw [heq]
    apply List.mem_filter.mpr
    refine ⟨hmem, ?_⟩
    have hne : fname ≠ fn := by
      intro hEq
      subst hEq
      have hgf := getFolder_eq_of_mem root hnd fname fl hmem
      rw [hgf] at hg
      cases hg
      exact hnv hv2
    simpa using hne

/-- Counterexample to claim C7 as stated: uninstalling the plugin declared
by an unmanaged folder fails with `Plugin not found`, not with the
invalid-plugin-folder error — though the folder does remain on disk. -/
theorem c7_counterexample :
    checkValidFolder unmanagedFolder = .ok false ∧
    uninstall "foreign-plugin" false unmanagedRoot
      = ⟨[], [], unmanagedRoot, .error (.msg "Plugin not found")⟩ := by
  decide

/-- Witness for claim C7's amended theorem: the unmanaged folder survives a
concrete uninstall call. -/
theorem c7_uninstall_guard_witness :
    ("foreign", unmanagedFolder) ∈ (uninstall "foreign-plugin" false unmanagedRoot).root :=
  (c7_uninstall_guard "foreign-plugin" false unmanagedRoot).2 "foreign" unmanagedFolder
    (by decide) (by decide) (by decide)

end Headlamp
